import Mathlib

/-!
Shallow embedding of the gameboyDMG emulator core (C sources) used to check
the natural-language specification.  Machine bytes are modelled as `Nat`
values reduced `% 256` where the C code reads a `uint8_t`, and 16-bit CPU
quantities as `Nat` reduced `% 65536` where the C code wraps a `uint16_t`.
The global C state (`CPU cpu`, `uint8_t memory[65536]`, `DMA dma`,
`TIMER timer`, `PPU ppu`, `JOYPAD joypad`, boot ROM) is gathered into one
record `GB`.
-/

set_option maxRecDepth 4096

/-- Machine state: CPU registers and flags (src/hardware/cpu.h, the CPU struct
in src/unnamed/part_001), the 64 KiB `memory` array, the boot ROM and its
enable flag, the DMA, PPU and TIMER state structs, and the joypad booleans. -/
structure GB where
  AF : Nat
  BC : Nat
  DE : Nat
  HL : Nat
  SP : Nat
  PC : Nat
  running : Bool
  halted : Bool
  halt_bug : Bool
  IME : Bool
  mem : Nat → Nat
  boot : Nat → Nat
  boot_rom_enabled : Bool
  dma_running : Bool
  dma_cycles : Nat
  ppu_mode : Nat
  ppu_cycle_counter : Nat
  ppu_ly : Nat
  visible_objects : List (Nat × Nat × Nat × Nat)
  div_cycle_counter : Nat
  tima_cycle_counter : Nat
  jp_start : Bool
  jp_select : Bool
  jp_b : Bool
  jp_a : Bool
  jp_down : Bool
  jp_up : Bool
  jp_left : Bool
  jp_right : Bool

/-- Point update of the byte array `memory`. -/
def upd (m : Nat → Nat) (a v : Nat) : Nat → Nat :=
  fun b => if b = a then v else m b

/-- ppu_get_mode (src/src/hardware/ppu.c:6-8): `memory[0xFF41] & 0x03`. -/
def ppu_get_mode (s : GB) : Nat :=
  (s.mem 0xFF41 % 256) &&& 0x03

/-- ReadMem (src/src/hardware/memory.c:53-108), release build (the
`DEBUG_TEST_LOG` override of 0xFF44 is compiled out).  Checks, in source
order: DMA lockout, VRAM gating, OAM gating, boot-ROM shadow, joypad
register recomputation, and finally the backing array. -/
def ReadMem (s : GB) (addr0 : Nat) : Nat :=
  let addr := addr0 % 65536
  let ppu_mode := ppu_get_mode s
  if s.dma_running ∧ (addr < 0xFF80 ∨ addr > 0xFFFE) then 0xFF
  else
    let LCDC := s.mem 0xFF40 % 256
    if LCDC >>> 7 = 1 ∧ 0x8000 ≤ addr ∧ addr ≤ 0x9FFF ∧ ppu_mode = 3 then 0xFF
    else if LCDC >>> 7 = 1 ∧ 0xFE00 ≤ addr ∧ addr ≤ 0xFE9F ∧
        (ppu_mode = 2 ∨ ppu_mode = 3) then 0xFF
    else if s.boot_rom_enabled ∧ addr < 0x0100 then s.boot addr % 256
    else if addr = 0xFF00 then
      let P1 := (s.mem 0xFF00 % 256) ||| 0x0F
      let P1 := if P1 &&& 0x10 = 0 then
          let P1 := if s.jp_right then P1 &&& 0xFE else P1
          let P1 := if s.jp_left then P1 &&& 0xFD else P1
          let P1 := if s.jp_up then P1 &&& 0xFB else P1
          if s.jp_down then P1 &&& 0xF7 else P1
        else P1
      let P1 := if P1 &&& 0x20 = 0 then
          let P1 := if s.jp_a then P1 &&& 0xFE else P1
          let P1 := if s.jp_b then P1 &&& 0xFD else P1
          let P1 := if s.jp_select then P1 &&& 0xFB else P1
          if s.jp_start then P1 &&& 0xF7 else P1
        else P1
      P1
    else s.mem addr % 256

/-- WriteMem (src/src/hardware/memory.c:14-51).  VRAM/OAM write gating, the
0xFF50 boot-ROM disable, the 0xFF46 DMA trigger (copy of 160 bytes from
`data * 0x0100` into OAM, `dma.running = true`, `dma.cycles = 0`), and the
DIV-reset special case; every non-DIV write also stores the byte. -/
def WriteMem (s : GB) (addr0 data0 : Nat) : GB :=
  let addr := addr0 % 65536
  let data := data0 % 256
  let ppu_mode := ppu_get_mode s
  let LCDC := s.mem 0xFF40 % 256
  if LCDC >>> 7 = 1 ∧ 0x8000 ≤ addr ∧ addr ≤ 0x9FFF ∧ ppu_mode = 3 then s
  else if LCDC >>> 7 = 1 ∧ 0xFE00 ≤ addr ∧ addr ≤ 0xFE9F ∧
      (ppu_mode = 2 ∨ ppu_mode = 3) then s
  else
    let s1 := if addr = 0xFF50 then { s with boot_rom_enabled := false } else s
    let s2 := if addr = 0xFF46 then
        { s1 with
          mem := fun a =>
            if 0xFE00 ≤ a ∧ a ≤ 0xFE9F then s1.mem (data * 0x0100 + (a - 0xFE00))
            else s1.mem a,
          dma_running := true,
          dma_cycles := 0 }
      else s1
    if addr ≠ 0xFF04 then { s2 with mem := upd s2.mem addr data }
    else { s2 with
           mem := upd s2.mem 0xFF04 0,
           div_cycle_counter := 0,
           tima_cycle_counter := 0 }

/-- FetchByte (src/src/hardware/memory.c:112-118): reads the byte at `PC`;
with `halt_bug` set, clears the bit and does not increment `PC`. -/
def FetchByte (s : GB) : Nat × GB :=
  if s.halt_bug then (ReadMem s s.PC, { s with halt_bug := false })
  else (ReadMem s s.PC, { s with PC := (s.PC + 1) % 65536 })

/-- dma_step (src/src/hardware/memory.c:132-137). -/
def dma_step (s : GB) (cycles : Nat) : GB :=
  if s.dma_running then
    let s1 := { s with dma_cycles := s.dma_cycles + cycles }
    if s1.dma_cycles ≥ 640 then { s1 with dma_running := false } else s1
  else s

/-- A base state with everything zeroed, used to build concrete inputs. -/
def gb0 : GB where
  AF := 0
  BC := 0
  DE := 0
  HL := 0
  SP := 0
  PC := 0
  running := true
  halted := false
  halt_bug := false
  IME := false
  mem := fun _ => 0
  boot := fun _ => 0
  boot_rom_enabled := false
  dma_running := false
  dma_cycles := 0
  ppu_mode := 2
  ppu_cycle_counter := 0
  ppu_ly := 0
  visible_objects := []
  div_cycle_counter := 0
  tima_cycle_counter := 0
  jp_start := false
  jp_select := false
  jp_b := false
  jp_a := false
  jp_down := false
  jp_up := false
  jp_left := false
  jp_right := false

/-- NOP (src/unnamed/part_000:1624 and src/gameboy.c:3462): no state change,
4 T-cycles. -/
def NOP (s : GB) : GB × Nat := (s, 4)

/-- HALT from the current split-build cpu.c (concatenated at
src/gameboy.c:3465-3475): reads IF and IE straight from the `memory` array;
with IME clear and a pending request it sets `halt_bug` and does not halt;
it enters halted mode only when `IE & IF == 0`. -/
def HALT (s : GB) : GB × Nat :=
  let IFv := s.mem 0xFF0F % 256
  let IEv := s.mem 0xFFFF % 256
  if ¬ s.IME ∧ IEv &&& IFv ≠ 0 then ({ s with halt_bug := true }, 4)
  else if IEv &&& IFv = 0 then ({ s with halted := true }, 4)
  else (s, 4)

/-- PUSH_BC (src/unnamed/part_000:1233-1237, identical in the split cpu.c):
two pre-decrements of SP with `WriteMem`, high byte first. -/
def PUSH_BC (s : GB) : GB × Nat :=
  let s1 := { s with SP := (s.SP + 65535) % 65536 }
  let s2 := WriteMem s1 s1.SP ((s1.BC >>> 8) % 256)
  let s3 := { s2 with SP := (s2.SP + 65535) % 65536 }
  (WriteMem s3 s3.SP (s3.BC &&& 0x00FF), 16)

/-- PUSH_DE (src/unnamed/part_000:1240-1244). -/
def PUSH_DE (s : GB) : GB × Nat :=
  let s1 := { s with SP := (s.SP + 65535) % 65536 }
  let s2 := WriteMem s1 s1.SP ((s1.DE >>> 8) % 256)
  let s3 := { s2 with SP := (s2.SP + 65535) % 65536 }
  (WriteMem s3 s3.SP (s3.DE &&& 0x00FF), 16)

/-- PUSH_HL (src/unnamed/part_000:1247-1251). -/
def PUSH_HL (s : GB) : GB × Nat :=
  let s1 := { s with SP := (s.SP + 65535) % 65536 }
  let s2 := WriteMem s1 s1.SP ((s1.HL >>> 8) % 256)
  let s3 := { s2 with SP := (s2.SP + 65535) % 65536 }
  (WriteMem s3 s3.SP (s3.HL &&& 0x00FF), 16)

/-- PUSH_AF (src/unnamed/part_000:1254-1258): the low byte is stored with
the flag mask `AF & 0x00F0`. -/
def PUSH_AF (s : GB) : GB × Nat :=
  let s1 := { s with SP := (s.SP + 65535) % 65536 }
  let s2 := WriteMem s1 s1.SP ((s1.AF >>> 8) % 256)
  let s3 := { s2 with SP := (s2.SP + 65535) % 65536 }
  (WriteMem s3 s3.SP (s3.AF &&& 0x00F0), 16)

/-- POP_BC (src/unnamed/part_000:1261-1265): low byte from SP, high byte
from SP+1, two post-increments of SP, reads through `ReadMem`. -/
def POP_BC (s : GB) : GB × Nat :=
  let s1 := { s with BC := ReadMem s s.SP, SP := (s.SP + 1) % 65536 }
  let s2 := { s1 with BC := (s1.BC &&& 0x00FF) ||| (ReadMem s1 s1.SP <<< 8),
                      SP := (s1.SP + 1) % 65536 }
  (s2, 12)

/-- POP_DE (src/unnamed/part_000:1268-1272). -/
def POP_DE (s : GB) : GB × Nat :=
  let s1 := { s with DE := ReadMem s s.SP, SP := (s.SP + 1) % 65536 }
  let s2 := { s1 with DE := (s1.DE &&& 0x00FF) ||| (ReadMem s1 s1.SP <<< 8),
                      SP := (s1.SP + 1) % 65536 }
  (s2, 12)

/-- POP_HL (src/unnamed/part_000:1274-1278). -/
def POP_HL (s : GB) : GB × Nat :=
  let s1 := { s with HL := ReadMem s s.SP, SP := (s.SP + 1) % 65536 }
  let s2 := { s1 with HL := (s1.HL &&& 0x00FF) ||| (ReadMem s1 s1.SP <<< 8),
                      SP := (s1.SP + 1) % 65536 }
  (s2, 12)

/-- POP_AF (src/unnamed/part_000:1280-1285): `AF = (a << 8) | (flags & 0xF0)`,
forcing the low nibble of F to zero. -/
def POP_AF (s : GB) : GB × Nat :=
  let flags := ReadMem s s.SP
  let s1 := { s with SP := (s.SP + 1) % 65536 }
  let a := ReadMem s1 s1.SP
  let s2 := { s1 with AF := (a <<< 8) ||| (flags &&& 0xF0), SP := (s1.SP + 1) % 65536 }
  (s2, 12)

/-- ADD_HL_rr as cited at src/gameboy.c:947-968: `uint16_t result = HL + n`;
carry compared against 0xFF and half-carry computed on the low nibbles
(`(HL & 0x0F) + (n & 0x0F) > 0x0F`); the opcode is re-read from
`memory[PC-1]`.  In the C source `n` is uninitialized for opcodes other
than 0x09/0x19/0x29/0x39; the dispatch table only routes those four here,
and every theorem below instantiates one of them. -/
def ADD_HL_rr (s : GB) : GB × Nat :=
  let opcode := s.mem ((s.PC + 65535) % 65536) % 256
  let n := if opcode = 0x09 then s.BC
           else if opcode = 0x19 then s.DE
           else if opcode = 0x29 then s.HL
           else if opcode = 0x39 then s.SP
           else 0
  let result := (s.HL + n) % 65536
  let f0 := s.AF &&& 0xFFBF
  let f1 := if result > 0xFF then f0 ||| 0x10 else f0 &&& 0xFFEF
  let f2 := if (s.HL &&& 0x0F) + (n &&& 0x0F) > 0x0F then f1 ||| 0x20 else f1 &&& 0xFFDF
  ({ s with AF := f2, HL := result }, 8)

/-- ADD_HL_rr as cited at src/unnamed/part_000:1317-1338: half-carry uses the
0x0FFF mask, but `result` is a `uint16_t`, so the carry test
`result > 0xFFFF` is always false and the C flag is always cleared; the
opcode is re-read through `ReadMem(PC-1)`. -/
def ADD_HL_rr_p0 (s : GB) : GB × Nat :=
  let opcode := ReadMem s ((s.PC + 65535) % 65536)
  let n := if opcode = 0x09 then s.BC
           else if opcode = 0x19 then s.DE
           else if opcode = 0x29 then s.HL
           else if opcode = 0x39 then s.SP
           else 0
  let result := (s.HL + n) % 65536
  let f0 := s.AF &&& 0xFFBF
  let f1 := if result > 0xFFFF then f0 ||| 0x10 else f0 &&& 0xFFEF
  let f2 := if (s.HL &&& 0x0FFF) + (n &&& 0x0FFF) > 0x0FFF then f1 ||| 0x20
            else f1 &&& 0xFFDF
  ({ s with AF := f2, HL := result }, 8)

/-- Value of an `int8_t` re-encoded as the C `uint16_t` summand (two's
complement): the sum `SP + n` on 16 bits. -/
def s8AsU16 (b : Nat) : Nat :=
  if b % 256 < 128 then b % 256 else 65280 + b % 256

/-- ADD_SP_s8 as cited at src/unnamed/part_000:1341-1353: fetches the signed
immediate, computes `SP + n` on 16 bits; the line `cpu->AF = 0x00` (comment:
clear Z, N, H, C) wipes the whole AF register including the accumulator A;
H and C come from the low-nibble and low-byte sums. -/
def ADD_SP_s8 (s : GB) : GB × Nat :=
  let fb := FetchByte s
  let b := fb.1
  let s1 := fb.2
  let result := (s1.SP + s8AsU16 b) % 65536
  let f0 := 0
  let f1 := if (s1.SP &&& 0x0F) + (b &&& 0x0F) > 0x0F then f0 ||| 0x20 else f0
  let f2 := if (s1.SP &&& 0xFF) + (b &&& 0xFF) > 0xFF then f1 ||| 0x10 else f1
  ({ s1 with AF := f2, SP := result }, 16)

/-- handleInterrupts (src/src/gameboy.c:47-91): reads IE and IF through
`ReadMem`; with IME clear a pending request only wakes the CPU; otherwise a
pending request clears `halted` and IME, pushes PC through `WriteMem`,
clears the winning IF bit directly in `memory` and vectors PC, returning
20 T-cycles. -/
def handleInterrupts (s : GB) : GB × Nat :=
  let IEv := ReadMem s 0xFFFF
  let IFv := ReadMem s 0xFF0F
  let requested := IEv &&& IFv
  if ¬ s.IME then
    (if requested ≠ 0 then { s with halted := false } else s, 0)
  else if requested = 0 then (s, 0)
  else
    let s1 := { s with halted := false, IME := false, SP := (s.SP + 65534) % 65536 }
    let s2 := WriteMem s1 s1.SP (s1.PC &&& 0xFF)
    let s3 := WriteMem s2 ((s2.SP + 1) % 65536) (s2.PC >>> 8)
    let s4 :=
      if requested &&& 0x01 ≠ 0 then
        { s3 with mem := upd s3.mem 0xFF0F ((s3.mem 0xFF0F % 256) &&& 0xFE), PC := 0x0040 }
      else if requested &&& 0x02 ≠ 0 then
        { s3 with mem := upd s3.mem 0xFF0F ((s3.mem 0xFF0F % 256) &&& 0xFD), PC := 0x0048 }
      else if requested &&& 0x04 ≠ 0 then
        { s3 with mem := upd s3.mem 0xFF0F ((s3.mem 0xFF0F % 256) &&& 0xFB), PC := 0x0050 }
      else if requested &&& 0x08 ≠ 0 then
        { s3 with mem := upd s3.mem 0xFF0F ((s3.mem 0xFF0F % 256) &&& 0xF7), PC := 0x0058 }
      else if requested &&& 0x10 ≠ 0 then
        { s3 with mem := upd s3.mem 0xFF0F ((s3.mem 0xFF0F % 256) &&& 0xEF), PC := 0x0060 }
      else s3
    (s4, 20)

/-- One iteration of the TIMA while-loop body (src/unnamed/part_001:30-43):
increment `memory[0xFF05]` as a byte; if it wrapped to 0, reload it from
`memory[0xFF06]` and set bit 2 of `memory[0xFF0F]`. -/
def tima_body (m : Nat → Nat) : Nat → Nat :=
  let m1 := upd m 0xFF05 ((m 0xFF05 % 256 + 1) % 256)
  if m1 0xFF05 = 0 then
    upd (upd m1 0xFF05 (m1 0xFF06 % 256)) 0xFF0F ((m1 0xFF0F % 256) ||| 0x04)
  else m1

/-- The TIMA while-loop (src/unnamed/part_001:30-43), fuel-indexed: the C
loop `while (tima_cycle_counter >= threshold)` subtracts `threshold ≥ 16`
each iteration, so `tima` itself bounds the iteration count and the fuel
never runs out when called with `fuel = tima`. -/
def tima_while (fuel threshold tima : Nat) (m : Nat → Nat) : Nat × (Nat → Nat) :=
  match fuel with
  | 0 => (tima, m)
  | fuel + 1 =>
    if threshold ≤ tima then tima_while fuel threshold (tima - threshold) (tima_body m)
    else (tima, m)

/-- timer_step (src/unnamed/part_001:8-45): add the cycles to both
accumulators, drain the DIV accumulator in units of
`CLOCK_FREQ_HZ / DIV_INC_FREQ_HZ = 256`, then — only when TAC bit 2 is
set — drain the TIMA accumulator in units of `CLOCK_FREQ_HZ / rate` with
`rate` selected by TAC bits 1..0. -/
def timer_step (s : GB) (Tcycles : Nat) : GB :=
  let s1 := { s with div_cycle_counter := s.div_cycle_counter + Tcycles,
                     tima_cycle_counter := s.tima_cycle_counter + Tcycles }
  let s2 := if s1.div_cycle_counter ≥ 256 then
      { s1 with
        mem := upd s1.mem 0xFF04 ((s1.mem 0xFF04 % 256 + s1.div_cycle_counter / 256) % 256),
        div_cycle_counter := s1.div_cycle_counter % 256 }
    else s1
  let TAC := s2.mem 0xFF07 % 256
  if TAC &&& 0x04 ≠ 0 then
    let rate := if TAC &&& 0x03 = 0 then 4096
                else if TAC &&& 0x03 = 1 then 262144
                else if TAC &&& 0x03 = 2 then 65536
                else 16384
    let threshold := 4194304 / rate
    let r := tima_while s2.tima_cycle_counter threshold s2.tima_cycle_counter s2.mem
    { s2 with tima_cycle_counter := r.1, mem := r.2 }
  else s2

/-- ppu_set_mode (src/src/hardware/ppu.c:15-18). -/
def ppu_set_mode (s : GB) (mode : Nat) : GB :=
  { s with ppu_mode := mode,
           mem := upd s.mem 0xFF41 (((s.mem 0xFF41 % 256) &&& 0xFC) ||| mode) }

/-- Insertion of one OAM record into a list ordered by the X byte; together
with `sortByX` this models the `qsort` call with `sprite_comparator`
(src/src/hardware/ppu.c:218-222, 249), which orders records by byte 1.
`qsort` leaves the order of equal keys unspecified; insertion keeps the
scan order there. -/
def insertByX (o : Nat × Nat × Nat × Nat) :
    List (Nat × Nat × Nat × Nat) → List (Nat × Nat × Nat × Nat)
  | [] => [o]
  | p :: rest => if o.2.1 ≤ p.2.1 then o :: p :: rest else p :: insertByX o rest

/-- Sort of the visible-sprite list by the X byte (see `insertByX`). -/
def sortByX (l : List (Nat × Nat × Nat × Nat)) : List (Nat × Nat × Nat × Nat) :=
  l.foldr insertByX []

/-- ppu_oam_scan (src/src/hardware/ppu.c:227-250): walk the 40 four-byte OAM
records at 0xFE00 in index order, keep those covering the current scanline
(`ly >= Y-16 && ly < Y-16+height` in int arithmetic), stop after 10, then
sort by X. -/
def ppu_oam_scan (s : GB) : GB :=
  let LCDC := s.mem 0xFF40 % 256
  let height : Int := if LCDC &&& 0x04 ≠ 0 then 16 else 8
  let objY : Nat → Nat := fun i => s.mem (0xFE00 + 4 * i) % 256
  let visible := ((List.range 40).filter (fun i =>
      decide ((s.ppu_ly : Int) ≥ (objY i : Int) - 16) &&
      decide ((s.ppu_ly : Int) < (objY i : Int) - 16 + height))).take 10
  let recs := visible.map (fun i =>
      (s.mem (0xFE00 + 4 * i) % 256, s.mem (0xFE00 + 4 * i + 1) % 256,
       s.mem (0xFE00 + 4 * i + 2) % 256, s.mem (0xFE00 + 4 * i + 3) % 256))
  { s with visible_objects := sortByX recs }

/-- ppu_step (src/src/hardware/ppu.c:257-331).  `ppu_scanline`
(src/src/hardware/ppu.c:24-215) only reads state and emits pixels through
the host callback, so the DRAWING-exit call to it is a no-op on the state
modelled here.  In the HBLANK-exit branch the local `STAT` is refreshed
after the coincidence update, exactly as in the source; the VBLANK branch
uses the value read at function entry. -/
def ppu_step (s : GB) (cycles : Nat) : GB :=
  let s0 := { s with ppu_cycle_counter := s.ppu_cycle_counter + cycles }
  let STAT := s0.mem 0xFF41 % 256
  match s0.ppu_mode with
  | 2 =>
    if s0.ppu_cycle_counter ≥ 80 then
      ppu_set_mode { s0 with ppu_cycle_counter := s0.ppu_cycle_counter - 80 } 3
    else s0
  | 3 =>
    if s0.ppu_cycle_counter ≥ 172 then
      let s1 := ppu_set_mode { s0 with ppu_cycle_counter := s0.ppu_cycle_counter - 172 } 0
      if STAT &&& 0x08 ≠ 0 then
        { s1 with mem := upd s1.mem 0xFF0F ((s1.mem 0xFF0F % 256) ||| 0x02) }
      else s1
    else s0
  | 0 =>
    if s0.ppu_cycle_counter ≥ 204 then
      let s1 := { s0 with ppu_cycle_counter := s0.ppu_cycle_counter - 204,
                          ppu_ly := (s0.ppu_ly + 1) % 256 }
      let s2 := { s1 with mem := upd s1.mem 0xFF44 s1.ppu_ly }
      let LYC := s2.mem 0xFF45 % 256
      let s3 :=
        if s2.ppu_ly = LYC then
          let sa := { s2 with mem := upd s2.mem 0xFF41 ((s2.mem 0xFF41 % 256) ||| 0x04) }
          if (sa.mem 0xFF41 % 256) &&& 0x40 ≠ 0 then
            { sa with mem := upd sa.mem 0xFF0F ((sa.mem 0xFF0F % 256) ||| 0x02) }
          else sa
        else { s2 with mem := upd s2.mem 0xFF41 ((s2.mem 0xFF41 % 256) &&& 0xFB) }
      let STAT2 := s3.mem 0xFF41 % 256
      if s3.ppu_ly = 144 then
        let s4 := ppu_set_mode s3 1
        let s5 := if STAT2 &&& 0x10 ≠ 0 then
            { s4 with mem := upd s4.mem 0xFF0F ((s4.mem 0xFF0F % 256) ||| 0x02) }
          else s4
        { s5 with mem := upd s5.mem 0xFF0F ((s5.mem 0xFF0F % 256) ||| 0x01) }
      else
        let s4 := ppu_set_mode s3 2
        let s5 := ppu_oam_scan s4
        if STAT2 &&& 0x20 ≠ 0 then
          { s5 with mem := upd s5.mem 0xFF0F ((s5.mem 0xFF0F % 256) ||| 0x02) }
        else s5
    else s0
  | 1 =>
    if s0.ppu_cycle_counter ≥ 456 then
      let s1 := { s0 with ppu_cycle_counter := s0.ppu_cycle_counter - 456,
                          ppu_ly := (s0.ppu_ly + 1) % 256 }
      let s2 := { s1 with mem := upd s1.mem 0xFF44 s1.ppu_ly }
      if s2.ppu_ly > 153 then
        let s3 := { s2 with ppu_ly := 0, mem := upd s2.mem 0xFF44 0 }
        let s4 := ppu_set_mode s3 2
        let s5 := ppu_oam_scan s4
        if STAT &&& 0x20 ≠ 0 then
          { s5 with mem := upd s5.mem 0xFF0F ((s5.mem 0xFF0F % 256) ||| 0x02) }
        else s5
      else s2
    else s0
  | _ => s0

/-- The serial debug tap at the end of the inner loop
(src/src/gameboy.c:395-398): when `memory[0xFF01]` is 7-bit ASCII and
`memory[0xFF02] == 0x81`, the byte is printed (external) and
`memory[0xFF02]` is cleared. -/
def serial_tap (s : GB) : GB :=
  if s.mem 0xFF01 % 256 ≤ 127 ∧ s.mem 0xFF02 % 256 = 0x81 then
    { s with mem := upd s.mem 0xFF02 0 }
  else s

/-- One iteration of the inner tick loop (src/src/gameboy.c:371-398),
parametrized by the dispatch table `instruction_table`.  Note the source:
`cycles_executed += handleInterrupts(&cpu);` followed in the non-halted
branch by `cycles_executed = instruction_table[opcode](&cpu);` — an
assignment that discards the interrupt-service cycles.  Returns the final
state and the `cycles_executed` value that is added to `cycles_this_frame`
and passed to `ppu_step`, `timer_step` and `dma_step`. -/
def tick_body (dispatch : Nat → GB → GB × Nat) (s : GB) : GB × Nat :=
  let h := handleInterrupts s
  let c0 := h.2
  let s1 := h.1
  let ex : GB × Nat :=
    if s1.halted then (s1, c0 + 4)
    else
      let fb := FetchByte s1
      let r := dispatch fb.1 fb.2
      (r.1, r.2)
  let s2 := ex.1
  let c := ex.2
  let s3 := ppu_step s2 c
  let s4 := timer_step s3 c
  let s5 := dma_step s4 c
  (serial_tap s5, c)

/-- The byte-wise successor used to describe the TIMA counter value: an
increment that wraps 0xFF to 0x00 lands on the reload value `tma`. -/
def tg (tma t : Nat) : Nat :=
  if t = 255 then tma % 256 else (t + 1) % 256

/-- Concrete input for claim C1: IME set, IE = IF = 0x01 (V-Blank pending),
not halted, NOP at the interrupt vector. -/
def c1state : GB :=
  { gb0 with IME := true, PC := 0x0100, SP := 0xFFFE,
             mem := upd (upd gb0.mem 0xFFFF 0x01) 0xFF0F 0x01 }

/-- Concrete input for claim C2: the handler for opcode 0x09 (ADD HL,BC)
with HL = 0x8F00 and BC = 0x7100, so that the true sum 0x10000 exceeds
0xFFFF and the masked sum 0xF00 + 0x100 = 0x1000 exceeds 0xFFF. -/
def c2state : GB :=
  { gb0 with PC := 0x0001, HL := 0x8F00, BC := 0x7100,
             mem := upd gb0.mem 0x0000 0x09 }

/-- Concrete input for claim C9: A = 0x55, SP = 0x0008, immediate s8 = +1. -/
def c9state : GB :=
  { gb0 with AF := 0x5500, SP := 0x0008, PC := 0x0010,
             mem := upd gb0.mem 0x0010 0x01 }

/-- Concrete input for claim C4: PPU in VBLANK on line 144 with LYC = 145
and STAT bit 2 clear. -/
def c4state : GB :=
  { gb0 with ppu_mode := 1, ppu_ly := 144, mem := upd gb0.mem 0xFF45 145 }

/-- Concrete input for the amended C4 theorem: PPU at the end of an HBLANK
period, cycle counter already at 204. -/
def c4hb : GB := { gb0 with ppu_mode := 0, ppu_cycle_counter := 204 }

/-- Concrete input for claim C7: DMA lockout active, stack in work RAM. -/
def c7state : GB :=
  { gb0 with dma_running := true, SP := 0xC002, BC := 0x1234 }

/-- Concrete input used by several witnesses: DMA lockout active, CPU
halted, IME set. -/
def c10state : GB :=
  { gb0 with dma_running := true, halted := true, IME := true, SP := 0xC080, PC := 0x1234 }

@[simp] theorem upd_same (m : Nat → Nat) (a v : Nat) : upd m a v a = v := by
  simp [upd]

theorem upd_ne (m : Nat → Nat) (a v b : Nat) (h : b ≠ a) : upd m a v b = m b := by
  simp [upd, h]

/-- C8 counterexample: a `WriteMem` to cartridge-ROM address 0x1000 is not
ignored — the stored byte changes from 0x00 to 0x42. -/
theorem c8_rom_write_goes_through :
    (WriteMem gb0 0x1000 0x42).mem 0x1000 = 0x42 ∧ gb0.mem 0x1000 = 0 := by
  constructor <;> decide

/-- C8 amended: for every state, every address in 0x0000-0x7FFF and every
data value, `WriteMem` stores the byte there (cartridge-ROM writes go
through to the backing array; they are not ignored). -/
theorem c8_amended_rom_writes_store (s : GB) (a d : Nat) (ha : a ≤ 0x7FFF) :
    (WriteMem s a d).mem a = d % 256 := by
  have ha' : a % 65536 = a := Nat.mod_eq_of_lt (by omega)
  unfold WriteMem
  simp only [ha']
  rw [if_neg (by omega), if_neg (by omega), if_pos (by omega)]
  rw [if_neg (by omega), if_neg (by omega)]
  simp [upd]

/-- Witness for `c8_amended_rom_writes_store` at address 0x1000, data 0x42. -/
theorem c8_amended_rom_writes_store_witness :
    (WriteMem gb0 0x1000 0x42).mem 0x1000 = 0x42 % 256 :=
  c8_amended_rom_writes_store gb0 0x1000 0x42 (by decide)

/-- C2: evaluation of the cited ADD_HL_rr at HL = 0x8F00, rr = BC = 0x7100.
The claim requires H (the masked sums exceed 0xFFF) and C (the true sum
exceeds 0xFFFF); the handler of src/gameboy.c:947-968 clears both flags
(its carry test compares the 16-bit-truncated result with 0xFF and its
half-carry uses the 0x0F nibble masks), and the part_000 copy also leaves
C clear (its `uint16_t result` can never exceed 0xFFFF). -/
theorem c2_add_hl_rr_flags_diverge :
    (ADD_HL_rr c2state).1.AF &&& 0x20 = 0 ∧ (ADD_HL_rr c2state).1.AF &&& 0x10 = 0 ∧
    (ADD_HL_rr c2state).1.HL = 0 ∧
    (c2state.HL &&& 0x0FFF) + (c2state.BC &&& 0x0FFF) > 0x0FFF ∧
    c2state.HL + c2state.BC > 0xFFFF ∧
    (ADD_HL_rr_p0 c2state).1.AF &&& 0x10 = 0 := by
  refine ⟨?_, ?_, ?_, ?_, ?_, ?_⟩ <;> decide

/-- C9: evaluation of the cited ADD_SP_s8 at A = 0x55, SP = 0x0008,
s8 = +1.  SP and the flags behave as the claim says, but the whole AF
register is overwritten: the accumulator A is zeroed instead of being left
unchanged (the source line `cpu->AF = 0x00` contradicts its own comment,
which says it clears only Z, N, H, C). -/
theorem c9_add_sp_s8_clobbers_a :
    (ADD_SP_s8 c9state).1.AF >>> 8 = 0 ∧ c9state.AF >>> 8 = 0x55 ∧
    (ADD_SP_s8 c9state).1.SP = 0x0009 ∧ (ADD_SP_s8 c9state).1.AF = 0 := by
  refine ⟨?_, ?_, ?_, ?_⟩ <;> decide

/-- C1: evaluation of one inner tick-loop iteration at a state where
interrupt servicing returns 20 cycles and the CPU is not halted afterwards
(NOP at the vector).  The loop advances the PPU, timer and DMA — and adds
to the frame counter — only the handler's 4 cycles, not 20 + 4: the
assignment `cycles_executed = instruction_table[opcode](&cpu)` at
src/src/gameboy.c:385 discards the serviced-interrupt cycles that the spec
pseudocode accumulates with `c += dispatch[op]`. -/
theorem c1_interrupt_cycles_dropped :
    (tick_body (fun _ => NOP) c1state).2 = 4 ∧ (handleInterrupts c1state).2 = 20 ∧
    (tick_body (fun _ => NOP) c1state).1.div_cycle_counter = 4 ∧
    (tick_body (fun _ => NOP) c1state).2 ≠ (handleInterrupts c1state).2 + 4 := by
  refine ⟨?_, ?_, ?_, ?_⟩ <;> decide

/-- C4 counterexample: starting in VBLANK on line 144 with LYC = 145 and
STAT bit 2 clear, stepping 456 cycles moves LY to 145 = LYC, yet bit 2 of
STAT stays clear — the VBLANK line increment never updates the coincidence
bit, so the claimed invariant fails at this instruction boundary. -/
theorem c4_vblank_coincidence_stale :
    (ppu_step c4state 456).ppu_ly = (ppu_step c4state 456).mem 0xFF45 % 256 ∧
    Nat.testBit ((ppu_step c4state 456).mem 0xFF41) 2 = false := by
  refine ⟨?_, ?_⟩ <;> decide

/-- C7 counterexample: with the DMA lockout active and the stack in work
RAM, `PUSH BC; POP BC` does not preserve BC — the pops read 0xFF through
the locked bus, leaving BC = 0xFFFF instead of 0x1234 (SP is still
restored). -/
theorem c7_push_pop_fails_under_dma :
    (POP_BC (PUSH_BC c7state).1).1.BC = 0xFFFF ∧ c7state.BC = 0x1234 ∧
    (POP_BC (PUSH_BC c7state).1).1.SP = c7state.SP := by
  refine ⟨?_, ?_, ?_⟩ <;> decide

theorem WriteMem_plain (s : GB) (a d : Nat) (ha : a < 65536)
    (h1 : ¬(0x8000 ≤ a ∧ a ≤ 0x9FFF)) (h2 : ¬(0xFE00 ≤ a ∧ a ≤ 0xFE9F))
    (h50 : a ≠ 0xFF50) (h46 : a ≠ 0xFF46) (h04 : a ≠ 0xFF04) :
    WriteMem s a d = { s with mem := upd s.mem a (d % 256) } := by
  have ha' : a % 65536 = a := Nat.mod_eq_of_lt ha
  unfold WriteMem
  simp only [ha']
  rw [if_neg (by tauto), if_neg (by tauto), if_neg h50, if_neg h46, if_pos h04]

theorem ReadMem_plain (s : GB) (a : Nat) (ha : a < 65536)
    (hdma : s.dma_running = false)
    (h1 : ¬(0x8000 ≤ a ∧ a ≤ 0x9FFF)) (h2 : ¬(0xFE00 ≤ a ∧ a ≤ 0xFE9F))
    (hb : s.boot_rom_enabled = false ∨ 0x100 ≤ a) (hj : a ≠ 0xFF00) :
    ReadMem s a = s.mem a % 256 := by
  have ha' : a % 65536 = a := Nat.mod_eq_of_lt ha
  unfold ReadMem
  simp only [ha', hdma]
  rw [if_neg (by simp), if_neg (by tauto), if_neg (by tauto),
      if_neg (by rcases hb with hb | hb <;> simp [hb]), if_neg hj]

theorem lo_or_hi (x : Nat) :
    ((x % 256) &&& 0x00FF) ||| ((x / 256) <<< 8) = x := by
  have h1 : (x % 256) &&& 0x00FF = x % 256 % 256 :=
    Nat.and_pow_two_sub_one_eq_mod (x % 256) 8
  have h2 : (x / 256) <<< 8 = 2 ^ 8 * (x / 256) := by
    rw [Nat.shiftLeft_eq]
    ring
  have hlt : x % 256 % 256 < 2 ^ 8 := Nat.mod_lt _ (by norm_num)
  have h3 := Nat.mul_add_lt_is_or hlt (x / 256)
  have h256 : (2 : Nat) ^ 8 = 256 := by norm_num
  rw [h1, h2, Nat.or_comm, ← h3, h256]
  omega

theorem reassemble16 (x : Nat) (hx : x < 65536) :
    x % 256 % 256 % 256 &&& 255 ||| (x / 256 % 256 % 256 % 256) <<< 8 = x := by
  have m1 : x % 256 % 256 % 256 = x % 256 := by omega
  have m2 : x / 256 % 256 % 256 % 256 = x / 256 := by omega
  rw [m1, m2]
  exact lo_or_hi x

theorem byte_and_240 : ∀ y, y < 256 → y &&& 240 = y / 16 * 16 := by decide

theorem highbyte_and_240 : ∀ h, h < 256 → 256 * h &&& 240 = 0 := by decide

theorem and_240_split (x : Nat) (hx : x < 65536) :
    x &&& 240 = 16 * (x % 256 / 16) := by
  have hm : x % 256 < 2 ^ 8 := Nat.mod_lt _ (by norm_num)
  have hor := Nat.mul_add_lt_is_or hm (x / 256)
  have h256 : (2 : Nat) ^ 8 = 256 := by norm_num
  rw [h256] at hor
  conv_lhs => rw [← Nat.div_add_mod x 256, hor]
  rw [Nat.and_distrib_right, highbyte_and_240 _ (by omega),
      byte_and_240 _ (Nat.mod_lt _ (by norm_num))]
  rw [Nat.zero_or]
  ring

theorem or_af_low (x y : Nat) : ((x <<< 8) ||| (y &&& 240)) &&& 15 = 0 := by
  have h1 : (x <<< 8) &&& 15 = (x <<< 8) % 16 := Nat.and_pow_two_sub_one_eq_mod _ 4
  have h2 : x <<< 8 = 256 * x := by
    rw [Nat.shiftLeft_eq]
    ring
  have h3 : (y &&& 240) &&& 15 = 0 := by
    rw [Nat.and_assoc, show ((240 : Nat) &&& 15) = 0 from rfl, Nat.and_zero]
  rw [Nat.and_distrib_right, h1, h3, Nat.or_zero, h2]
  omega

theorem pop_af_low (t : GB) : (POP_AF t).1.AF &&& 0x000F = 0 := by
  simp only [POP_AF]
  exact or_af_low _ _

theorem pushpop_bc (s : GB) (hsp : s.SP < 65536) (hbc : s.BC < 65536)
    (hdma : s.dma_running = false)
    (hok : ∀ a, (a = (s.SP + 65535) % 65536 ∨ a = ((s.SP + 65535) % 65536 + 65535) % 65536) →
      ¬(0x8000 ≤ a ∧ a ≤ 0x9FFF) ∧ ¬(0xFE00 ≤ a ∧ a ≤ 0xFE9F) ∧
      (s.boot_rom_enabled = false ∨ 0x100 ≤ a) ∧
      a ≠ 0xFF00 ∧ a ≠ 0xFF04 ∧ a ≠ 0xFF46 ∧ a ≠ 0xFF50) :
    (POP_BC (PUSH_BC s).1).1.BC = s.BC ∧ (POP_BC (PUSH_BC s).1).1.SP = s.SP := by
  have hA1 : (s.SP + 65535) % 65536 < 65536 := Nat.mod_lt _ (by omega)
  have hA2 : ((s.SP + 65535) % 65536 + 65535) % 65536 < 65536 := Nat.mod_lt _ (by omega)
  have hne : (s.SP + 65535) % 65536 ≠ ((s.SP + 65535) % 65536 + 65535) % 65536 := by omega
  obtain ⟨g1, g2, g3, g4, g5, g6, g7⟩ := hok ((s.SP + 65535) % 65536) (Or.inl rfl)
  obtain ⟨k1, k2, k3, k4, k5, k6, k7⟩ :=
    hok (((s.SP + 65535) % 65536 + 65535) % 65536) (Or.inr rfl)
  simp only [PUSH_BC, POP_BC]
  rw [WriteMem_plain _ _ _ hA1 g1 g2 g7 g6 g5]
  dsimp only
  rw [WriteMem_plain _ _ _ hA2 k1 k2 k7 k6 k5]
  dsimp only
  rw [show ((((s.SP + 65535) % 65536 + 65535) % 65536 + 1) % 65536) = (s.SP + 65535) % 65536
      from by omega]
  rw [ReadMem_plain]
  case ha => exact hA2
  case hdma => exact hdma
  case h1 => exact k1
  case h2 => exact k2
  case hb => exact k3
  case hj => exact k4
  dsimp only
  rw [ReadMem_plain]
  case ha => exact hA1
  case hdma => exact hdma
  case h1 => exact g1
  case h2 => exact g2
  case hb => exact g3
  case hj => exact g4
  dsimp only
  rw [upd_same, upd_ne _ _ _ _ hne, upd_same]
  constructor
  · have hx1 : s.BC &&& 255 = s.BC % 256 := Nat.and_pow_two_sub_one_eq_mod s.BC 8
    have hx2 : s.BC >>> 8 = s.BC / 256 := Nat.shiftRight_eq_div_pow s.BC 8
    rw [hx1, hx2]
    exact reassemble16 s.BC hbc
  · omega

theorem pushpop_de (s : GB) (hsp : s.SP < 65536) (hde : s.DE < 65536)
    (hdma : s.dma_running = false)
    (hok : ∀ a, (a = (s.SP + 65535) % 65536 ∨ a = ((s.SP + 65535) % 65536 + 65535) % 65536) →
      ¬(0x8000 ≤ a ∧ a ≤ 0x9FFF) ∧ ¬(0xFE00 ≤ a ∧ a ≤ 0xFE9F) ∧
      (s.boot_rom_enabled = false ∨ 0x100 ≤ a) ∧
      a ≠ 0xFF00 ∧ a ≠ 0xFF04 ∧ a ≠ 0xFF46 ∧ a ≠ 0xFF50) :
    (POP_DE (PUSH_DE s).1).1.DE = s.DE ∧ (POP_DE (PUSH_DE s).1).1.SP = s.SP := by
  have hA1 : (s.SP + 65535) % 65536 < 65536 := Nat.mod_lt _ (by omega)
  have hA2 : ((s.SP + 65535) % 65536 + 65535) % 65536 < 65536 := Nat.mod_lt _ (by omega)
  have hne : (s.SP + 65535) % 65536 ≠ ((s.SP + 65535) % 65536 + 65535) % 65536 := by omega
  obtain ⟨g1, g2, g3, g4, g5, g6, g7⟩ := hok ((s.SP + 65535) % 65536) (Or.inl rfl)
  obtain ⟨k1, k2, k3, k4, k5, k6, k7⟩ :=
    hok (((s.SP + 65535) % 65536 + 65535) % 65536) (Or.inr rfl)
  simp only [PUSH_DE, POP_DE]
  rw [WriteMem_plain _ _ _ hA1 g1 g2 g7 g6 g5]
  dsimp only
  rw [WriteMem_plain _ _ _ hA2 k1 k2 k7 k6 k5]
  dsimp only
  rw [show ((((s.SP + 65535) % 65536 + 65535) % 65536 + 1) % 65536) = (s.SP + 65535) % 65536
      from by omega]
  rw [ReadMem_plain]
  case ha => exact hA2
  case hdma => exact hdma
  case h1 => exact k1
  case h2 => exact k2
  case hb => exact k3
  case hj => exact k4
  dsimp only
  rw [ReadMem_plain]
  case ha => exact hA1
  case hdma => exact hdma
  case h1 => exact g1
  case h2 => exact g2
  case hb => exact g3
  case hj => exact g4
  dsimp only
  rw [upd_same, upd_ne _ _ _ _ hne, upd_same]
  constructor
  · have hx1 : s.DE &&& 255 = s.DE % 256 := Nat.and_pow_two_sub_one_eq_mod s.DE 8
    have hx2 : s.DE >>> 8 = s.DE / 256 := Nat.shiftRight_eq_div_pow s.DE 8
    rw [hx1, hx2]
    exact reassemble16 s.DE hde
  · omega

theorem pushpop_hl (s : GB) (hsp : s.SP < 65536) (hhl : s.HL < 65536)
    (hdma : s.dma_running = false)
    (hok : ∀ a, (a = (s.SP + 65535) % 65536 ∨ a = ((s.SP + 65535) % 65536 + 65535) % 65536) →
      ¬(0x8000 ≤ a ∧ a ≤ 0x9FFF) ∧ ¬(0xFE00 ≤ a ∧ a ≤ 0xFE9F) ∧
      (s.boot_rom_enabled = false ∨ 0x100 ≤ a) ∧
      a ≠ 0xFF00 ∧ a ≠ 0xFF04 ∧ a ≠ 0xFF46 ∧ a ≠ 0xFF50) :
    (POP_HL (PUSH_HL s).1).1.HL = s.HL ∧ (POP_HL (PUSH_HL s).1).1.SP = s.SP := by
  have hA1 : (s.SP + 65535) % 65536 < 65536 := Nat.mod_lt _ (by omega)
  have hA2 : ((s.SP + 65535) % 65536 + 65535) % 65536 < 65536 := Nat.mod_lt _ (by omega)
  have hne : (s.SP + 65535) % 65536 ≠ ((s.SP + 65535) % 65536 + 65535) % 65536 := by omega
  obtain ⟨g1, g2, g3, g4, g5, g6, g7⟩ := hok ((s.SP + 65535) % 65536) (Or.inl rfl)
  obtain ⟨k1, k2, k3, k4, k5, k6, k7⟩ :=
    hok (((s.SP + 65535) % 65536 + 65535) % 65536) (Or.inr rfl)
  simp only [PUSH_HL, POP_HL]
  rw [WriteMem_plain _ _ _ hA1 g1 g2 g7 g6 g5]
  dsimp only
  rw [WriteMem_plain _ _ _ hA2 k1 k2 k7 k6 k5]
  dsimp only
  rw [show ((((s.SP + 65535) % 65536 + 65535) % 65536 + 1) % 65536) = (s.SP + 65535) % 65536
      from by omega]
  rw [ReadMem_plain]
  case ha => exact hA2
  case hdma => exact hdma
  case h1 => exact k1
  case h2 => exact k2
  case hb => exact k3
  case hj => exact k4
  dsimp only
  rw [ReadMem_plain]
  case ha => exact hA1
  case hdma => exact hdma
  case h1 => exact g1
  case h2 => exact g2
  case hb => exact g3
  case hj => exact g4
  dsimp only
  rw [upd_same, upd_ne _ _ _ _ hne, upd_same]
  constructor
  · have hx1 : s.HL &&& 255 = s.HL % 256 := Nat.and_pow_two_sub_one_eq_mod s.HL 8
    have hx2 : s.HL >>> 8 = s.HL / 256 := Nat.shiftRight_eq_div_pow s.HL 8
    rw [hx1, hx2]
    exact reassemble16 s.HL hhl
  · omega

theorem pushpop_af (s : GB) (hsp : s.SP < 65536) (haf : s.AF < 65536)
    (hdma : s.dma_running = false)
    (hok : ∀ a, (a = (s.SP + 65535) % 65536 ∨ a = ((s.SP + 65535) % 65536 + 65535) % 65536) →
      ¬(0x8000 ≤ a ∧ a ≤ 0x9FFF) ∧ ¬(0xFE00 ≤ a ∧ a ≤ 0xFE9F) ∧
      (s.boot_rom_enabled = false ∨ 0x100 ≤ a) ∧
      a ≠ 0xFF00 ∧ a ≠ 0xFF04 ∧ a ≠ 0xFF46 ∧ a ≠ 0xFF50) :
    (POP_AF (PUSH_AF s).1).1.AF = 16 * (s.AF / 16) ∧ (POP_AF (PUSH_AF s).1).1.SP = s.SP := by
  have hA1 : (s.SP + 65535) % 65536 < 65536 := Nat.mod_lt _ (by omega)
  have hA2 : ((s.SP + 65535) % 65536 + 65535) % 65536 < 65536 := Nat.mod_lt _ (by omega)
  have hne : (s.SP + 65535) % 65536 ≠ ((s.SP + 65535) % 65536 + 65535) % 65536 := by omega
  obtain ⟨g1, g2, g3, g4, g5, g6, g7⟩ := hok ((s.SP + 65535) % 65536) (Or.inl rfl)
  obtain ⟨k1, k2, k3, k4, k5, k6, k7⟩ :=
    hok (((s.SP + 65535) % 65536 + 65535) % 65536) (Or.inr rfl)
  simp only [PUSH_AF, POP_AF]
  rw [WriteMem_plain _ _ _ hA1 g1 g2 g7 g6 g5]
  dsimp only
  rw [WriteMem_plain _ _ _ hA2 k1 k2 k7 k6 k5]
  dsimp only
  rw [show ((((s.SP + 65535) % 65536 + 65535) % 65536 + 1) % 65536) = (s.SP + 65535) % 65536
      from by omega]
  rw [ReadMem_plain]
  case ha => exact hA1
  case hdma => exact hdma
  case h1 => exact g1
  case h2 => exact g2
  case hb => exact g3
  case hj => exact g4
  dsimp only
  rw [ReadMem_plain]
  case ha => exact hA2
  case hdma => exact hdma
  case h1 => exact k1
  case h2 => exact k2
  case hb => exact k3
  case hj => exact k4
  dsimp only
  rw [upd_same, upd_ne _ _ _ _ hne, upd_same]
  refine ⟨?_, by omega⟩
  have hx2 : s.AF >>> 8 = s.AF / 256 := Nat.shiftRight_eq_div_pow s.AF 8
  rw [hx2]
  have m2 : s.AF / 256 % 256 % 256 % 256 = s.AF / 256 := by omega
  have hf : s.AF &&& 240 < 256 := lt_of_le_of_lt Nat.and_le_right (by norm_num)
  have m3 : (s.AF &&& 240) % 256 % 256 = s.AF &&& 240 := by omega
  rw [m2, m3]
  rw [Nat.and_assoc]
  rw [show ((240 : Nat) &&& 240) = 240 from rfl]
  rw [and_240_split s.AF haf]
  have hsh : (s.AF / 256) <<< 8 = 256 * (s.AF / 256) := by
    rw [Nat.shiftLeft_eq]
    ring
  rw [hsh]
  have h16 : 16 * (s.AF % 256 / 16) < 2 ^ 8 := by omega
  have hor2 := Nat.mul_add_lt_is_or h16 (s.AF / 256)
  have h256 : (2 : Nat) ^ 8 = 256 := by norm_num
  rw [h256] at hor2
  rw [← hor2]
  omega

/-- C7 amended: in states where the bus is transparent at the two stack
bytes — DMA not running, both addresses outside the gated VRAM and OAM
ranges and away from the special registers 0xFF00/0xFF04/0xFF46/0xFF50,
and not shadowed by the boot ROM — `PUSH rr; POP rr` preserves rr for
BC, DE and HL, preserves AF up to forcing the low nibble of F to zero
(the result is `16 * (AF / 16)`), and preserves SP for all four pairs;
`POP AF` forces the low nibble of F to zero in every state.  (As stated
over every machine state the claim is false: see the DMA counterexample.) -/
theorem c7_amended_push_pop (s : GB) (hsp : s.SP < 65536)
    (hbc : s.BC < 65536) (hde : s.DE < 65536) (hhl : s.HL < 65536) (haf : s.AF < 65536)
    (hdma : s.dma_running = false)
    (hok : ∀ a, (a = (s.SP + 65535) % 65536 ∨ a = ((s.SP + 65535) % 65536 + 65535) % 65536) →
      ¬(0x8000 ≤ a ∧ a ≤ 0x9FFF) ∧ ¬(0xFE00 ≤ a ∧ a ≤ 0xFE9F) ∧
      (s.boot_rom_enabled = false ∨ 0x100 ≤ a) ∧
      a ≠ 0xFF00 ∧ a ≠ 0xFF04 ∧ a ≠ 0xFF46 ∧ a ≠ 0xFF50) :
    (POP_BC (PUSH_BC s).1).1.BC = s.BC ∧ (POP_BC (PUSH_BC s).1).1.SP = s.SP ∧
    (POP_DE (PUSH_DE s).1).1.DE = s.DE ∧ (POP_DE (PUSH_DE s).1).1.SP = s.SP ∧
    (POP_HL (PUSH_HL s).1).1.HL = s.HL ∧ (POP_HL (PUSH_HL s).1).1.SP = s.SP ∧
    (POP_AF (PUSH_AF s).1).1.AF = 16 * (s.AF / 16) ∧ (POP_AF (PUSH_AF s).1).1.SP = s.SP ∧
    (∀ t : GB, (POP_AF t).1.AF &&& 0x000F = 0) := by
  obtain ⟨b1, b2⟩ := pushpop_bc s hsp hbc hdma hok
  obtain ⟨d1, d2⟩ := pushpop_de s hsp hde hdma hok
  obtain ⟨e1, e2⟩ := pushpop_hl s hsp hhl hdma hok
  obtain ⟨f1, f2⟩ := pushpop_af s hsp haf hdma hok
  exact ⟨b1, b2, d1, d2, e1, e2, f1, f2, fun t => pop_af_low t⟩

/-- Witness for `c7_amended_push_pop`: stack at 0xC002 in work RAM,
BC = 0x1234, AF = 0x12FF; the round trip restores BC and yields
AF = 0x12F0 = 16 * (0x12FF / 16). -/
theorem c7_amended_push_pop_witness :
    (POP_BC (PUSH_BC { gb0 with SP := 0xC002, BC := 0x1234, AF := 0x12FF }).1).1.BC = 0x1234 ∧
    (POP_AF (PUSH_AF { gb0 with SP := 0xC002, BC := 0x1234, AF := 0x12FF }).1).1.AF =
      16 * (0x12FF / 16) := by
  have h := c7_amended_push_pop { gb0 with SP := 0xC002, BC := 0x1234, AF := 0x12FF }
    (by decide) (by decide) (by decide) (by decide) (by decide) (by decide)
    (by
      intro a ha
      rcases ha with rfl | rfl
      · exact ⟨by decide, by decide, by decide, by decide, by decide, by decide, by decide⟩
      · exact ⟨by decide, by decide, by decide, by decide, by decide, by decide, by decide⟩)
  exact ⟨h.1, h.2.2.2.2.2.2.1⟩

theorem WriteMem_halted (s : GB) (a d : Nat) : (WriteMem s a d).halted = s.halted := by
  unfold WriteMem
  simp only []
  repeat' split
  all_goals rfl

theorem WriteMem_PC (s : GB) (a d : Nat) : (WriteMem s a d).PC = s.PC := by
  unfold WriteMem
  simp only []
  repeat' split
  all_goals rfl

/-- C3: when IME is clear and `IE & IF` is non-zero, HALT sets `halt_bug`
and leaves the halted flag untouched (the CPU does not enter halted mode);
and any fetch performed with `halt_bug` set reads the byte at PC without
incrementing PC and clears the bit by that fetch. -/
theorem c3_halt_bug_fetch (s : GB) :
    (s.IME = false → (s.mem 0xFFFF % 256) &&& (s.mem 0xFF0F % 256) ≠ 0 →
      (HALT s).1.halt_bug = true ∧ (HALT s).1.halted = s.halted ∧ (HALT s).2 = 4)
    ∧ (s.halt_bug = true →
      (FetchByte s).2.PC = s.PC ∧ (FetchByte s).2.halt_bug = false ∧
      (FetchByte s).1 = ReadMem s s.PC) := by
  constructor
  · intro h1 h2
    unfold HALT
    rw [if_pos]
    · exact ⟨rfl, rfl, rfl⟩
    · simp [h1, h2]
  · intro hb
    unfold FetchByte
    rw [if_pos hb]
    exact ⟨rfl, rfl, rfl⟩

/-- Witness for `c3_halt_bug_fetch`: IE = IF = 0x01 with IME clear makes
HALT set `halt_bug`; a fetch at PC = 0x0200 with `halt_bug` set leaves PC
at 0x0200. -/
theorem c3_halt_bug_fetch_witness :
    (HALT { gb0 with mem := upd (upd gb0.mem 0xFFFF 1) 0xFF0F 1 }).1.halt_bug = true ∧
    (FetchByte { gb0 with halt_bug := true, PC := 0x0200 }).2.PC = 0x0200 := by
  have h1 := (c3_halt_bug_fetch { gb0 with mem := upd (upd gb0.mem 0xFFFF 1) 0xFF0F 1 }).1
    rfl (by decide)
  have h2 := (c3_halt_bug_fetch { gb0 with halt_bug := true, PC := 0x0200 }).2 rfl
  exact ⟨h1.1, h2.1⟩

theorem ReadMem_dma_locked (s : GB) (a : Nat) (hd : s.dma_running = true)
    (h : a % 65536 < 0xFF80 ∨ a % 65536 > 0xFFFE) : ReadMem s a = 0xFF := by
  unfold ReadMem
  simp only [hd]
  rw [if_pos]
  exact ⟨trivial, h⟩

/-- C10: whenever the DMA lockout is active, `handleInterrupts` reads both
IE (0xFFFF) and IF (0xFF0F) through the locked bus and gets 0xFF for each,
so the pending mask is 0xFF: a halted CPU is always woken, and with IME
set an interrupt is always serviced with PC vectored to 0x0040 (V-Blank)
and 20 cycles returned, regardless of the stored IE and IF contents. -/
theorem c10_dma_interrupt_storm (s : GB) (hd : s.dma_running = true) :
    ReadMem s 0xFFFF = 0xFF ∧ ReadMem s 0xFF0F = 0xFF ∧
    (handleInterrupts s).1.halted = false ∧
    (s.IME = true → (handleInterrupts s).1.PC = 0x0040 ∧ (handleInterrupts s).2 = 20) := by
  have r1 : ReadMem s 0xFFFF = 0xFF := ReadMem_dma_locked s 0xFFFF hd (by decide)
  have r2 : ReadMem s 0xFF0F = 0xFF := ReadMem_dma_locked s 0xFF0F hd (by decide)
  refine ⟨r1, r2, ?_, ?_⟩
  · unfold handleInterrupts
    rw [r1, r2]
    by_cases hI : s.IME
    · simp only [hI]
      norm_num
      rw [WriteMem_halted, WriteMem_halted]
    · simp [hI]
  · intro hI
    unfold handleInterrupts
    rw [r1, r2]
    simp only [hI]
    norm_num

/-- Witness for `c10_dma_interrupt_storm`: a halted state with IME set and
DMA running is woken and vectored to 0x0040. -/
theorem c10_dma_interrupt_storm_witness :
    ReadMem c10state 0xFFFF = 0xFF ∧ (handleInterrupts c10state).1.halted = false ∧
    (handleInterrupts c10state).1.PC = 0x0040 := by
  have h := c10_dma_interrupt_storm c10state rfl
  exact ⟨h.1, h.2.2.1, (h.2.2.2 rfl).1⟩

/-- C5: a write of v to 0xFF46 immediately copies the 160 bytes starting at
v*0x100 into OAM (0xFE00-0xFE9F), sets the DMA running flag and zeroes the
elapsed-cycle counter; while the flag is set, every ReadMem of an address
below 0xFF80 or above 0xFFFE returns 0xFF; dma_step accumulates elapsed
cycles and clears the running flag exactly when they reach 640. -/
theorem c5_dma_transfer (s : GB) :
    (∀ v i, i < 160 →
      (WriteMem s 0xFF46 v).dma_running = true ∧
      (WriteMem s 0xFF46 v).dma_cycles = 0 ∧
      (WriteMem s 0xFF46 v).mem (0xFE00 + i) = s.mem ((v % 256) * 0x0100 + i))
    ∧ (∀ a, a ≤ 0xFFFF → (a < 0xFF80 ∨ a > 0xFFFE) → s.dma_running = true →
        ReadMem s a = 0xFF)
    ∧ (∀ c, s.dma_running = true →
        (dma_step s c).dma_cycles = s.dma_cycles + c ∧
        ((dma_step s c).dma_running = false ↔ 640 ≤ s.dma_cycles + c))
    ∧ (∀ c, s.dma_running = false → dma_step s c = s) := by
  refine ⟨?_, ?_, ?_, ?_⟩
  · intro v i hi
    unfold WriteMem
    norm_num
    rw [upd_ne _ _ _ _ (by omega)]
    rw [if_pos (by omega)]
    rw [show 0xFE00 + i - 0xFE00 = i from by omega]
  · intro a ha h hd
    exact ReadMem_dma_locked s a hd (by omega)
  · intro c hd
    unfold dma_step
    rw [if_pos hd]
    simp only []
    split
    next h640 =>
      refine ⟨rfl, ?_⟩
      simp
      omega
    next h640 =>
      refine ⟨rfl, ?_⟩
      simp [hd]
      omega
  · intro c hd
    unfold dma_step
    rw [if_neg (by simp [hd])]

/-- Witness for `c5_dma_transfer`: writing 0xC0 to 0xFF46 copies byte 5 of
page 0xC0 into OAM and starts the lockout; a locked read of 0xC000 gives
0xFF; stepping 640 cycles ends the lockout. -/
theorem c5_dma_transfer_witness :
    (WriteMem { gb0 with mem := upd gb0.mem 0xC005 0x7A } 0xFF46 0xC0).mem (0xFE00 + 5) =
      0x7A ∧
    ReadMem { gb0 with dma_running := true } 0xC000 = 0xFF ∧
    (dma_step { gb0 with dma_running := true } 640).dma_running = false := by
  have h1 := ((c5_dma_transfer { gb0 with mem := upd gb0.mem 0xC005 0x7A }).1 0xC0 5
    (by decide)).2.2
  have h2 := (c5_dma_transfer { gb0 with dma_running := true }).2.1 0xC000 (by decide)
    (Or.inl (by decide)) rfl
  have h3 := ((c5_dma_transfer { gb0 with dma_running := true }).2.2.1 640 rfl).2.mpr
    (by decide)
  refine ⟨?_, h2, h3⟩
  rw [h1]
  decide

theorem upd_apply (m : Nat → Nat) (a v b : Nat) :
    upd m a v b = if b = a then v else m b := rfl

theorem tima_body_eval (m : Nat → Nat) (b : Nat) :
    (tima_body m) b =
      if m 0xFF05 % 256 = 255 then
        (if b = 0xFF0F then m 0xFF0F % 256 ||| 4
         else if b = 0xFF05 then m 0xFF06 % 256 else m b)
      else (if b = 0xFF05 then m 0xFF05 % 256 + 1 else m b) := by
  unfold tima_body
  simp only [ite_apply, upd_apply]
  split_ifs <;> omega

theorem tima_body_FF06 (m : Nat → Nat) : (tima_body m) 0xFF06 = m 0xFF06 := by
  rw [tima_body_eval m 0xFF06]
  norm_num

theorem tima_body_tima (m : Nat → Nat) :
    (tima_body m) 0xFF05 % 256 = tg (m 0xFF06) (m 0xFF05 % 256) := by
  rw [tima_body_eval m 0xFF05]
  unfold tg
  norm_num
  split_ifs <;> omega

theorem tima_body_IF (m : Nat → Nat) :
    (Nat.testBit ((tima_body m) 0xFF0F) 2 = true ↔
      (Nat.testBit (m 0xFF0F) 2 = true ∨ m 0xFF05 % 256 = 255)) := by
  rw [tima_body_eval m 0xFF0F]
  norm_num
  split_ifs with h
  · have ht : (m 0xFF0F % 256 ||| 4).testBit 2 = true := by
      rw [show (4 : Nat) = 2 ^ 2 from by norm_num, Nat.testBit_or, Nat.testBit_two_pow_self]
      simp
    simp [ht, h]
  · simp [h]

theorem iter_FF06 (n : Nat) (m : Nat → Nat) :
    (tima_body^[n] m) 0xFF06 = m 0xFF06 := by
  induction n with
  | zero => rfl
  | succ k ih =>
    rw [Function.iterate_succ_apply', tima_body_FF06, ih]

theorem iter_tima (n : Nat) (m : Nat → Nat) :
    (tima_body^[n] m) 0xFF05 % 256 = (tg (m 0xFF06))^[n] (m 0xFF05 % 256) := by
  induction n with
  | zero => rfl
  | succ k ih =>
    rw [Function.iterate_succ_apply', tima_body_tima, iter_FF06, ih]
    exact (Function.iterate_succ_apply' (tg (m 0xFF06)) k (m 0xFF05 % 256)).symm

theorem iter_IF (n : Nat) (m : Nat → Nat) :
    (Nat.testBit ((tima_body^[n] m) 0xFF0F) 2 = true ↔
      (Nat.testBit (m 0xFF0F) 2 = true ∨
        ∃ k, k < n ∧ (tg (m 0xFF06))^[k] (m 0xFF05 % 256) = 255)) := by
  induction n with
  | zero =>
    simp
  | succ k ih =>
    rw [Function.iterate_succ_apply', tima_body_IF, ih, iter_tima]
    constructor
    · intro h
      rcases h with (h | h) | h
      · exact Or.inl h
      · exact Or.inr (by rcases h with ⟨j, hj, hv⟩; exact ⟨j, by omega, hv⟩)
      · exact Or.inr ⟨k, by omega, h⟩
    · intro h
      rcases h with h | ⟨j, hj, hv⟩
      · exact Or.inl (Or.inl h)
      · by_cases hjk : j < k
        · exact Or.inl (Or.inr ⟨j, hjk, hv⟩)
        · right
          have : j = k := by omega
          rw [← this]
          exact hv

theorem tima_while_spec (fuel : Nat) : ∀ th t m, 0 < th → t ≤ fuel →
    tima_while fuel th t m = (t % th, tima_body^[t / th] m) := by
  induction fuel with
  | zero =>
    intro th t m hth ht
    unfold tima_while
    have h0 : t = 0 := by omega
    subst h0
    simp
  | succ k ih =>
    intro th t m hth ht
    unfold tima_while
    split
    next hle =>
      rw [ih th (t - th) (tima_body m) hth (by omega)]
      have h1 : (t - th) % th = t % th := (Nat.mod_eq_sub_mod hle).symm
      have h2 : t / th = (t - th) / th + 1 := Nat.div_eq_sub_div hth hle
      rw [h1, h2, Function.iterate_succ_apply]
    next hle =>
      have hlt : t < th := by omega
      rw [Nat.mod_eq_of_lt hlt, Nat.div_eq_of_lt hlt]
      simp

/-- C6: behaviour of the TIMA half of `timer_step`.  With TAC bit 2 clear,
TIMA (0xFF05) and IF (0xFF0F) are untouched while the accumulator keeps
accumulating.  With TAC bit 2 set and the threshold selected by TAC bits
1..0 (00 gives 1024, 01 gives 16, 10 gives 64, 11 gives 256 T-cycles), the
accumulator is reduced modulo the threshold and TIMA is incremented once
per accumulated threshold — `(acc + c) / threshold` times — where each
step `tg` adds 1 and an increment that wraps 0xFF reloads TIMA from TMA
(0xFF06); bit 2 of IF ends set exactly when it was set before or some
increment wrapped. -/
theorem c6_timer_step_tima (s : GB) (c : Nat) :
    (s.mem 0xFF07 % 256 &&& 0x04 = 0 →
      (timer_step s c).mem 0xFF05 = s.mem 0xFF05 ∧
      (timer_step s c).mem 0xFF0F = s.mem 0xFF0F ∧
      (timer_step s c).tima_cycle_counter = s.tima_cycle_counter + c)
    ∧ (s.mem 0xFF07 % 256 &&& 0x04 ≠ 0 → ∀ th,
      th = (if s.mem 0xFF07 % 256 &&& 0x03 = 0 then 1024
            else if s.mem 0xFF07 % 256 &&& 0x03 = 1 then 16
            else if s.mem 0xFF07 % 256 &&& 0x03 = 2 then 64 else 256) →
      (timer_step s c).tima_cycle_counter = (s.tima_cycle_counter + c) % th ∧
      (timer_step s c).mem 0xFF05 % 256 =
        (tg (s.mem 0xFF06))^[(s.tima_cycle_counter + c) / th] (s.mem 0xFF05 % 256) ∧
      (Nat.testBit ((timer_step s c).mem 0xFF0F) 2 = true ↔
        (Nat.testBit (s.mem 0xFF0F) 2 = true ∨
          ∃ k, k < (s.tima_cycle_counter + c) / th ∧
            (tg (s.mem 0xFF06))^[k] (s.mem 0xFF05 % 256) = 255))) := by
  constructor
  · intro h4
    unfold timer_step
    simp only []
    split
    next hdiv =>
      rw [if_neg]
      · refine ⟨?_, ?_, rfl⟩ <;> simp [upd_apply]
      · exact fun hne => hne h4
    next hdiv =>
      rw [if_neg]
      · exact ⟨rfl, rfl, rfl⟩
      · exact fun hne => hne h4
  · intro h4 th hth
    have hb : s.mem 0xFF07 % 256 &&& 3 ≤ 3 := Nat.and_le_right
    unfold timer_step
    simp only []
    split
    all_goals (
      try dsimp only
      try simp only [upd_apply]
      norm_num
      try rw [if_neg h4]
      rcases (by omega : s.mem 0xFF07 % 256 &&& 3 = 0 ∨ s.mem 0xFF07 % 256 &&& 3 = 1 ∨
          s.mem 0xFF07 % 256 &&& 3 = 2 ∨ s.mem 0xFF07 % 256 &&& 3 = 3) with h3 | h3 | h3 | h3 <;>
        simp only [h3] at hth ⊢ <;>
        norm_num at hth ⊢ <;>
        subst hth <;>
        rw [tima_while_spec _ _ _ _ (by norm_num) (le_refl _)] <;>
        refine ⟨rfl, ?_, ?_⟩ <;>
        (first
          | (dsimp only
             rw [iter_tima]
             try simp only [upd_apply]
             try norm_num)
          | (dsimp only
             rw [iter_IF]
             try simp only [upd_apply]
             try norm_num)))

/-- Witness for `c6_timer_step_tima`: TAC = 0x05 (enabled, threshold 16),
TIMA = 0xFE, TMA = 0xAB, zero accumulator, step of 40 cycles: the two
increments take TIMA through 0xFF to the reload value 0xAB, the leftover
accumulator is 8, and IF bit 2 is set. -/
theorem c6_timer_step_tima_witness :
    (timer_step { gb0 with
        mem := upd (upd (upd gb0.mem 0xFF07 0x05) 0xFF05 0xFE) 0xFF06 0xAB } 40).tima_cycle_counter = 8 ∧
    (timer_step { gb0 with
        mem := upd (upd (upd gb0.mem 0xFF07 0x05) 0xFF05 0xFE) 0xFF06 0xAB } 40).mem 0xFF05 % 256 = 0xAB ∧
    Nat.testBit ((timer_step { gb0 with
        mem := upd (upd (upd gb0.mem 0xFF07 0x05) 0xFF05 0xFE) 0xFF06 0xAB } 40).mem 0xFF0F) 2 = true := by
  have h := (c6_timer_step_tima { gb0 with
      mem := upd (upd (upd gb0.mem 0xFF07 0x05) 0xFF05 0xFE) 0xFF06 0xAB } 40).2
    (by decide) 16 (by decide)
  refine ⟨?_, ?_, ?_⟩
  · rw [h.1]
    decide
  · rw [h.2.1]
    decide
  · rw [h.2.2]
    right
    exact ⟨1, by decide, by decide⟩


theorem testBit2_mod256 (x : Nat) : (x % 256).testBit 2 = x.testBit 2 := by
  rw [show (256 : Nat) = 2 ^ 8 from rfl, Nat.testBit_mod_two_pow]
  simp

theorem ppu_oam_scan_mem (t : GB) : (ppu_oam_scan t).mem = t.mem := rfl

set_option maxHeartbeats 1000000 in
/-- C4 amended: bit 2 of STAT correctly tracks the new LY == LYC comparison on
every HBLANK-exit LY increment, but on a VBLANK-period LY change `ppu_step`
leaves bit 2 of STAT unchanged (stale), so the claimed invariant holds only for
the HBLANK-exit increments. -/
theorem c4_amended_coincidence (s : GB) (c : Nat) :
    (s.ppu_mode = 0 → 204 ≤ s.ppu_cycle_counter + c →
      (ppu_step s c).ppu_ly = (s.ppu_ly + 1) % 256 ∧
      (Nat.testBit ((ppu_step s c).mem 0xFF41) 2 = true ↔
        (s.ppu_ly + 1) % 256 = s.mem 0xFF45 % 256)) ∧
    (s.ppu_mode = 1 → 456 ≤ s.ppu_cycle_counter + c →
      Nat.testBit ((ppu_step s c).mem 0xFF41) 2 = Nat.testBit (s.mem 0xFF41) 2) := by
  constructor
  · intro hm hc
    unfold ppu_step
    simp only [hm]
    rw [if_pos (by omega)]
    try dsimp only
    simp only [upd_apply]
    norm_num
    split
    next hLY =>
      repeat' split
      all_goals refine ⟨rfl, ?_⟩
      all_goals simp only [ppu_oam_scan_mem, ppu_set_mode, upd_apply]
      all_goals try norm_num
      all_goals
        simp [testBit2_mod256, hLY,
              show Nat.testBit 252 2 = true from by decide,
              show Nat.testBit 4 2 = true from by decide,
              show Nat.testBit 2 2 = false from by decide,
              show Nat.testBit 1 2 = false from by decide]
    next hLY =>
      repeat' split
      all_goals refine ⟨rfl, ?_⟩
      all_goals simp only [ppu_oam_scan_mem, ppu_set_mode, upd_apply]
      all_goals try norm_num
      all_goals
        simp [testBit2_mod256, hLY,
              show Nat.testBit 252 2 = true from by decide,
              show Nat.testBit 251 2 = false from by decide,
              show Nat.testBit 2 2 = false from by decide,
              show Nat.testBit 1 2 = false from by decide]
  · intro hm hc
    unfold ppu_step
    simp only [hm]
    rw [if_pos (by omega)]
    by_cases hly : (s.ppu_ly + 1) % 256 > 153
    · rw [if_pos hly]
      split
      next hstat =>
        simp only [ppu_oam_scan_mem, ppu_set_mode]
        simp only [upd_apply]
        norm_num
        simp [testBit2_mod256, show Nat.testBit 252 2 = true from by decide,
              show Nat.testBit 2 2 = false from by decide]
      next hstat =>
        simp only [ppu_oam_scan_mem, ppu_set_mode]
        simp only [upd_apply]
        norm_num
        simp [testBit2_mod256, show Nat.testBit 252 2 = true from by decide,
              show Nat.testBit 2 2 = false from by decide]
    · rw [if_neg hly]
      dsimp only
      rw [upd_apply]
      norm_num

/-- Witness for `c4_amended_coincidence`: the HBLANK-exit half applied to a
concrete machine state at the end of an HBLANK period. -/
theorem c4_amended_coincidence_witness :
    (ppu_step c4hb 0).ppu_ly = (c4hb.ppu_ly + 1) % 256 ∧
    (Nat.testBit ((ppu_step c4hb 0).mem 0xFF41) 2 = true ↔
      (c4hb.ppu_ly + 1) % 256 = c4hb.mem 0xFF45 % 256) :=
  (c4_amended_coincidence c4hb 0).1 rfl (by decide)
